import Mathlib

/-!
Verification of the Phase 3 unit-commitment engine (`phase3_uc.py`).

The embedding below mirrors the source: the cost segmenter
(`piecewise_segments`), the marginal-cost rule for a segment, the model
builder's index sets and full constraint system (`build_uc_model`, rendered
here as an executable builder plus the predicate `Feasible` stating every
constraint emitted on a point), and the two-stage solve orchestrator
(`solve_uc`), whose external solver backends are abstracted as oracles
`String → Except String Unit` (one call per backend name, succeeding or
failing with a message).  Floating-point quantities are modelled as exact
rationals; Python dictionaries indexed by period/bus are association lists
read through the same `.get(…, default)` discipline as the source.
-/

/-- A generator record.  Optional fields mirror the source's
`g.get('key', default)` dictionary reads; `name` and `bus` are accessed
with mandatory indexing in the source. -/
structure GenData where
  name : String
  bus : Int
  pmin : Option ℚ := none
  pmax : Option ℚ := none
  ramp_up : Option ℚ := none
  ramp_down : Option ℚ := none
  startup_cost : Option ℚ := none
  shutdown_cost : Option ℚ := none
  min_up : Option Int := none
  min_down : Option Int := none
  cost_a : Option ℚ := none
  cost_b : Option ℚ := none

/-- A line record; all fields are accessed with mandatory indexing
(`l['reactance']` etc.) in the source. -/
structure LineData where
  name : String
  from_bus : Int
  to_bus : Int
  reactance : ℚ
  limit : ℚ

/-- The input data snapshot handed to `build_uc_model`.  `demand` is a
mandatory key; the others default like `data.get('buses', [])`,
`data.get('lines', [])`, `data.get('renewable', …)`,
`data.get('reserve_spinning', …)`, `data.get('reserve_nonspinning', …)`. -/
structure UCData where
  gens : List GenData
  buses : List Int := []
  lines : List LineData := []
  demand : List (ℕ × List (Int × ℚ))
  renewable : Option (List (ℕ × List (Int × ℚ))) := none
  reserve_spinning : Option (List (ℕ × ℚ)) := none
  reserve_nonspinning : Option (List (ℕ × ℚ)) := none

/-- `g.get('pmin', 0.0)`. -/
def pminOf (g : GenData) : ℚ := g.pmin.getD 0

/-- `g.get('pmax', 0.0)`. -/
def pmaxOf (g : GenData) : ℚ := g.pmax.getD 0

/-- `g.get('ramp_up', pmax[name])`. -/
def rampUpOf (g : GenData) : ℚ := g.ramp_up.getD (pmaxOf g)

/-- `g.get('ramp_down', pmax[name])`. -/
def rampDownOf (g : GenData) : ℚ := g.ramp_down.getD (pmaxOf g)

/-- `int(g.get('min_up', 1))`. -/
def minUpOf (g : GenData) : Int := g.min_up.getD 1

/-- `int(g.get('min_down', 1))`. -/
def minDownOf (g : GenData) : Int := g.min_down.getD 1

/-- The cost segmenter (`piecewise_segments(pmin, pmax, nseg)`): degenerate
single range when `pmax <= pmin`, else the consecutive pairs of the
`nseg + 1` evenly spaced points `pmin + (pmax - pmin) * i / nseg` of
`np.linspace(pmin, pmax, nseg + 1)`. -/
def piecewise_segments (pmin pmax : ℚ) (nseg : ℕ) : List (ℚ × ℚ) :=
  if pmax ≤ pmin then [(pmin, pmax)]
  else
    (List.range nseg).map (fun i : ℕ =>
      (pmin + (pmax - pmin) * (i : ℚ) / nseg, pmin + (pmax - pmin) * ((i : ℚ) + 1) / nseg))

/-- Representative marginal cost of one segment, mirroring the source's
`if a is not None and b is not None: … elif b is not None: … else: 0`
with `mid = 0.5 * (lo + hi)`. -/
def segMC (a b : Option ℚ) (lo hi : ℚ) : ℚ :=
  match a, b with
  | some av, some bv => 2 * av * (0.5 * (lo + hi)) + bv
  | none, some bv => bv
  | _, none => 0

/-- `seg_bounds[name]` of the builder. -/
def segBoundsOf (g : GenData) (nseg : ℕ) : List (ℚ × ℚ) :=
  piecewise_segments (pminOf g) (pmaxOf g) nseg

/-- `seg_cost[name]` of the builder: the marginal costs of the segments in
order. -/
def segCostOf (g : GenData) (nseg : ℕ) : List ℚ :=
  (segBoundsOf g nseg).map (fun s => segMC g.cost_a g.cost_b s.1 s.2)

/-- Start periods of minimum-up or minimum-down windows for one generator:
`range(1, horizon - span + 2)` guarded by `span > 1`. -/
def windowStarts (span : Int) (H : ℕ) : List ℕ :=
  if 1 < span then List.range' 1 ((H : Int) + 1 - span).toNat else []

/-- `buses = sorted(data.get('buses', []))`. -/
def busesOf (d : UCData) : List Int := List.insertionSort (· ≤ ·) d.buses

/-- `T = list(range(1, horizon + 1))`. -/
def Tlist (H : ℕ) : List ℕ := List.range' 1 H

/-- A two-level time-series read `m.get(t, {}).get(b, 0.0)`. -/
def tsGet (m : List (ℕ × List (Int × ℚ))) (t : ℕ) (b : Int) : ℚ :=
  (((m.lookup t).getD []).lookup b).getD 0

/-- A one-level requirement read `m.get(t, 0.0)`. -/
def reqGet (m : List (ℕ × ℚ)) (t : ℕ) : ℚ := (m.lookup t).getD 0

/-- The constant of the nodal-balance constraint:
`demand_ts.get(t, {}).get(b, 0.0) - ren_ts.get(t, {}).get(b, 0.0)`
(an absent `renewable` key behaves as the all-zero series). -/
def balanceRhs (d : UCData) (t : ℕ) (b : Int) : ℚ :=
  tsGet d.demand t b - tsGet (d.renewable.getD []) t b

/-- The DC-flow constraint for one line and period:
`flow - (theta_from - theta_to)/x == 0` when `x > 0`, else `flow == 0`. -/
def dcFlowCon (x θf θt fl : ℚ) : Prop :=
  if 0 < x then fl - (θf - θt) / x = 0 else fl = 0

/-- A point of the optimization model: one value per declared variable.
`u`, `v`, `w` are the commitment/startup/shutdown binaries, `p` the
dispatch, `p_seg` the per-segment dispatch, `theta` the bus angles,
`flow` the line flows, `r_sp`/`r_ns` the reserve allocations. -/
structure Assign where
  u : String → ℕ → ℚ
  v : String → ℕ → ℚ
  w : String → ℕ → ℚ
  p : String → ℕ → ℚ
  p_seg : String → ℕ → ℕ → ℚ
  theta : Int → ℕ → ℚ
  flow : String → ℕ → ℚ
  r_sp : String → ℕ → ℚ
  r_ns : String → ℕ → ℚ

/-- `Feasible d H nseg x`: the point `x` satisfies every variable domain and
every constraint that `build_uc_model(d, H, nseg)` emits, in source order:
variable domains, `seg_sum`, `seg_bounds_cons`, `gen_lb`, `gen_ub`,
`seg_commit`, `ramp_up_cons`/`ramp_down_cons` (periods `t >= 2` only),
`start_link`, `shut_link`, `min_up_cons`/`min_down_cons` (on the
precomputed window index sets), `balance`, `dc_flow`, `ref` (only when the
bus list is nonempty, on the first sorted bus), `line_pos`/`line_neg`,
`spin_avail`, `spin_req`, `ns_req`, `r_sp_bound`, `r_ns_bound`. -/
def Feasible (d : UCData) (H nseg : ℕ) (x : Assign) : Prop :=
  (∀ g ∈ d.gens, ∀ t ∈ Tlist H,
    (x.u g.name t = 0 ∨ x.u g.name t = 1) ∧
    (x.v g.name t = 0 ∨ x.v g.name t = 1) ∧
    (x.w g.name t = 0 ∨ x.w g.name t = 1) ∧
    0 ≤ x.p g.name t ∧ 0 ≤ x.r_sp g.name t ∧ 0 ≤ x.r_ns g.name t ∧
    ∀ s ∈ List.range (segBoundsOf g nseg).length, 0 ≤ x.p_seg g.name s t) ∧
  (∀ g ∈ d.gens, ∀ t ∈ Tlist H,
    x.p g.name t =
      ((List.range (segBoundsOf g nseg).length).map (fun s => x.p_seg g.name s t)).sum) ∧
  (∀ g ∈ d.gens, ∀ t ∈ Tlist H, ∀ s ∈ List.range (segBoundsOf g nseg).length,
    x.p_seg g.name s t ≤
      ((segBoundsOf g nseg).getD s (0, 0)).2 - ((segBoundsOf g nseg).getD s (0, 0)).1) ∧
  (∀ g ∈ d.gens, ∀ t ∈ Tlist H, 0 ≤ x.p g.name t - pminOf g * x.u g.name t) ∧
  (∀ g ∈ d.gens, ∀ t ∈ Tlist H, x.p g.name t - pmaxOf g * x.u g.name t ≤ 0) ∧
  (∀ g ∈ d.gens, ∀ t ∈ Tlist H,
    ((List.range (segBoundsOf g nseg).length).map (fun s => x.p_seg g.name s t)).sum
      - pmaxOf g * x.u g.name t ≤ 0) ∧
  (∀ g ∈ d.gens, ∀ t ∈ (Tlist H).filter (fun t => 2 ≤ t),
    x.p g.name t - x.p g.name (t - 1) - rampUpOf g ≤ 0 ∧
    x.p g.name (t - 1) - x.p g.name t - rampDownOf g ≤ 0) ∧
  (∀ g ∈ d.gens, ∀ t ∈ Tlist H,
    0 ≤ x.v g.name t - x.u g.name t + (if t = 1 then 0 else x.u g.name (t - 1))) ∧
  (∀ g ∈ d.gens, ∀ t ∈ Tlist H,
    0 ≤ x.w g.name t - (if t = 1 then 0 else x.u g.name (t - 1)) + x.u g.name t) ∧
  (∀ g ∈ d.gens, ∀ t ∈ windowStarts (minUpOf g) H,
    ((List.range' t (minUpOf g).toNat).map (fun k => x.v g.name k)).sum
      - x.u g.name (t + (minUpOf g).toNat - 1) ≤ 0) ∧
  (∀ g ∈ d.gens, ∀ t ∈ windowStarts (minDownOf g) H,
    ((List.range' t (minDownOf g).toNat).map (fun k => x.w g.name k)).sum
      + x.u g.name (t + (minDownOf g).toNat - 1) ≤ 1) ∧
  (∀ b ∈ busesOf d, ∀ t ∈ Tlist H,
    ((d.gens.filter (fun g => g.bus == b)).map (fun g => x.p g.name t)).sum
      + ((d.lines.filter (fun l => l.to_bus == b)).map (fun l => x.flow l.name t)).sum
      - ((d.lines.filter (fun l => l.from_bus == b)).map (fun l => x.flow l.name t)).sum
      - balanceRhs d t b = 0) ∧
  (∀ l ∈ d.lines, ∀ t ∈ Tlist H,
    dcFlowCon l.reactance (x.theta l.from_bus t) (x.theta l.to_bus t) (x.flow l.name t)) ∧
  (busesOf d = [] ∨ ∀ t ∈ Tlist H, x.theta ((busesOf d).headD 0) t = 0) ∧
  (∀ l ∈ d.lines, ∀ t ∈ Tlist H, x.flow l.name t - l.limit ≤ 0) ∧
  (∀ l ∈ d.lines, ∀ t ∈ Tlist H, -x.flow l.name t - l.limit ≤ 0) ∧
  (∀ t ∈ Tlist H,
    0 ≤ (d.gens.map (fun g => pmaxOf g * x.u g.name t - x.p g.name t)).sum
      - reqGet (d.reserve_spinning.getD []) t) ∧
  (∀ t ∈ Tlist H,
    0 ≤ (d.gens.map (fun g => x.r_sp g.name t)).sum
      - reqGet (d.reserve_spinning.getD []) t) ∧
  (∀ t ∈ Tlist H,
    0 ≤ (d.gens.map (fun g => x.r_ns g.name t)).sum
      - reqGet (d.reserve_nonspinning.getD []) t) ∧
  (∀ g ∈ d.gens, ∀ t ∈ Tlist H,
    x.r_sp g.name t - (pmaxOf g - x.p g.name t) ≤ 0) ∧
  (∀ g ∈ d.gens, ∀ t ∈ Tlist H,
    x.r_ns g.name t
      - (pmaxOf g * (1 - x.u g.name t) + (pmaxOf g - x.p g.name t)) ≤ 0)

/-- Candidate resolution of `solve_uc`: an explicit `solver_name` wins,
else the caller's list, else the default `['cbc', 'glpk']`. -/
def resolveCandidates (solver_name : Option String) (cands : Option (List String)) :
    List String :=
  match solver_name with
  | some s => [s]
  | none => cands.getD ["cbc", "glpk"]

/-- The MILP stage's for/else loop: try each backend in order, remembering
only the last exception; when the list is exhausted, raise
`RuntimeError("No solver succeeded. Last error: {last_exc}")`. -/
def tryMILP (milp : String → Except String Unit) :
    List String → Option String → Except String String
  | [], last => .error ("No solver succeeded. Last error: " ++ last.getD "None")
  | c :: rest, _ =>
    match milp c with
    | .ok _ => .ok c
    | .error e => tryMILP milp rest (some e)

/-- The LP re-solve stage: retry with the MILP backend, then (if that was
not already glpk) once with glpk; both failing raises
`RuntimeError("LP re-solve failed on both {used} and glpk: {ex}, {ex2}")`,
and when the MILP backend was glpk the original exception is re-raised. -/
def lpResolve (lp : String → Except String Unit) (used : String) : Except String String :=
  match lp used with
  | .ok _ => .ok used
  | .error e =>
    if used ≠ "glpk" then
      match lp "glpk" with
      | .ok _ => .ok "glpk"
      | .error e2 =>
        .error ("LP re-solve failed on both " ++ used ++ " and glpk: " ++ e ++ ", " ++ e2)
    else .error e

/-- `solve_uc`'s control flow over abstract backends: the MILP stage, the
binary-fixing step (a pure state mutation with no control-flow effect,
omitted), and the LP re-solve stage.  On success it reports the backend
used for each stage; any stage failure propagates as the raised error. -/
def solve_uc (milp lp : String → Except String Unit)
    (solver_name : Option String) (cands : Option (List String)) :
    Except String (String × String) :=
  match tryMILP milp (resolveCandidates solver_name cands) none with
  | .error e => .error e
  | .ok used =>
    match lpResolve lp used with
    | .error e => .error e
    | .ok lpUsed => .ok (used, lpUsed)

/-- Concrete system: one bus, one generator with `pmin 0`, `pmax 10`, no
lines, no demand, no reserve requirements. -/
def exG1 : GenData := { name := "g1", bus := 1, pmin := some 0, pmax := some 10 }

/-- Data snapshot holding just `exG1` on bus 1. -/
def exData : UCData := { gens := [exG1], buses := [1], demand := [] }

/-- The all-off point that nevertheless carries 10 MW of spinning reserve
on the uncommitted generator. -/
def exAsg : Assign :=
  { u := fun _ _ => 0
    v := fun _ _ => 0
    w := fun _ _ => 0
    p := fun _ _ => 0
    p_seg := fun _ _ _ => 0
    theta := fun _ _ => 0
    flow := fun _ _ => 0
    r_sp := fun _ _ => 10
    r_ns := fun _ _ => 0 }

/-- Backend oracle where only `cbc` completes the MILP stage. -/
def milpFirstOk : String → Except String Unit :=
  fun s => if s = "cbc" then .ok () else .error "X"

/-- Backend oracle whose LP solve always fails. -/
def lpAlwaysFail : String → Except String Unit := fun _ => .error "LPERR"

/-- Backend oracle where every candidate fails the MILP stage, with
distinct reasons for `cbc` and the rest. -/
def milpAllFail : String → Except String Unit :=
  fun s => if s = "cbc" then .error "E1" else .error "E2"

/-- A generator with a convex quadratic cost (`a = 1 ≥ 0`, `b = 2`). -/
def exGQuad : GenData :=
  { name := "gq", bus := 1, pmin := some 0, pmax := some 2,
    cost_a := some 1, cost_b := some 2 }

/-- A demand series with a single entry at period 1, bus 2. -/
def exDem : List (ℕ × List (Int × ℚ)) := [(1, [(2, 5)])]

/-- Pointwise form of a non-degenerate segment: entry `i` of the segmenter's
output is the pair of linspace points `i` and `i + 1`. -/
lemma piecewise_segments_get (pmin pmax : ℚ) (n : ℕ) (h : ¬ pmax ≤ pmin) (i : ℕ)
    (hi : i < (piecewise_segments pmin pmax n).length) :
    (piecewise_segments pmin pmax n).get ⟨i, hi⟩ =
      (pmin + (pmax - pmin) * i / n, pmin + (pmax - pmin) * (i + 1) / n) := by
  simp only [piecewise_segments, if_neg h, List.get_eq_getElem, List.getElem_map,
    List.getElem_range]

/-- C5: for every `pmin`, `pmax` and segment count `N ≥ 1` with `pmax > pmin`,
`piecewise_segments` returns exactly `N` ordered sub-ranges of equal width
`(pmax - pmin) / N` partitioning `[pmin, pmax]`: the first lower bound is
`pmin`, the last upper bound is `pmax`, and each sub-range's upper bound equals
the next one's lower bound; and when `pmax ≤ pmin` it returns the single
degenerate range `[(pmin, pmax)]`. -/
theorem piecewise_segments_spec :
    ∀ (pmin pmax : ℚ) (n : ℕ),
      (1 ≤ n → pmin < pmax →
        (piecewise_segments pmin pmax n).length = n ∧
        (∀ h0 : 0 < (piecewise_segments pmin pmax n).length,
          ((piecewise_segments pmin pmax n).get ⟨0, h0⟩).1 = pmin) ∧
        (∀ hl : n - 1 < (piecewise_segments pmin pmax n).length,
          ((piecewise_segments pmin pmax n).get ⟨n - 1, hl⟩).2 = pmax) ∧
        (∀ i, ∀ hi : i < (piecewise_segments pmin pmax n).length,
          ∀ hj : i + 1 < (piecewise_segments pmin pmax n).length,
          ((piecewise_segments pmin pmax n).get ⟨i, hi⟩).2 =
            ((piecewise_segments pmin pmax n).get ⟨i + 1, hj⟩).1) ∧
        (∀ pq ∈ piecewise_segments pmin pmax n, pq.2 - pq.1 = (pmax - pmin) / n)) ∧
      (pmax ≤ pmin → piecewise_segments pmin pmax n = [(pmin, pmax)]) := by
  intro pmin pmax n
  constructor
  · intro hn hlt
    have h : ¬ pmax ≤ pmin := not_le.mpr hlt
    have hn0 : (n : ℚ) ≠ 0 := Nat.cast_ne_zero.mpr (by omega)
    refine ⟨by simp only [piecewise_segments, if_neg h, List.length_map, List.length_range],
      ?_, ?_, ?_, ?_⟩
    · intro h0
      rw [piecewise_segments_get pmin pmax n h 0 h0]
      norm_num
    · intro hl
      rw [piecewise_segments_get pmin pmax n h (n - 1) hl]
      have hc : ((n - 1 : ℕ) : ℚ) = (n : ℚ) - 1 := by
        have h1 : 1 ≤ n := hn
        push_cast [h1]
        ring
      rw [hc]
      field_simp
    · intro i hi hj
      rw [piecewise_segments_get pmin pmax n h i hi,
        piecewise_segments_get pmin pmax n h (i + 1) hj]
      have hc1 : ((i + 1 : ℕ) : ℚ) = (i : ℚ) + 1 := by norm_cast
      rw [hc1]
    · intro pq hpq
      simp only [piecewise_segments, if_neg h, List.mem_map, List.mem_range] at hpq
      obtain ⟨i, hi, rfl⟩ := hpq
      field_simp
      ring
  · intro hle
    simp [piecewise_segments, if_pos hle]

/-- Witness for C5 at `pmin = 0`, `pmax = 10`, `N = 2`. -/
theorem piecewise_segments_spec_witness :
    (1 : ℕ) ≤ 2 ∧ (0 : ℚ) < 10 ∧ (piecewise_segments 0 10 2).length = 2 ∧
    (∀ pq ∈ piecewise_segments 0 10 2, pq.2 - pq.1 = ((10 : ℚ) - 0) / 2) :=
  ⟨by norm_num, by norm_num,
   ((piecewise_segments_spec 0 10 2).1 (by norm_num) (by norm_num)).1,
   ((piecewise_segments_spec 0 10 2).1 (by norm_num) (by norm_num)).2.2.2.2⟩

/-- C6: for every generator and every one of its cost segments `(lo, hi)`, the
representative marginal cost is `2 * a * mid + b` when both coefficients are
present, else `b` when only the linear coefficient is present, else `0`, with
`mid = (lo + hi) / 2`. -/
theorem segCostOf_formula :
    ∀ (g : GenData) (n : ℕ),
      (∀ av bv, g.cost_a = some av → g.cost_b = some bv →
        segCostOf g n = (segBoundsOf g n).map (fun s => 2 * av * ((s.1 + s.2) / 2) + bv)) ∧
      (∀ bv, g.cost_a = none → g.cost_b = some bv →
        segCostOf g n = (segBoundsOf g n).map (fun _ => bv)) ∧
      (g.cost_a = none → g.cost_b = none →
        segCostOf g n = (segBoundsOf g n).map (fun _ => (0 : ℚ))) := by
  intro g n
  refine ⟨?_, ?_, ?_⟩
  · intro av bv ha hb
    unfold segCostOf
    rw [ha, hb]
    refine List.map_congr_left ?_
    intro s _
    simp only [segMC]
    ring
  · intro bv ha hb
    unfold segCostOf
    rw [ha, hb]
    rfl
  · intro ha hb
    unfold segCostOf
    rw [ha, hb]
    rfl

/-- Witness for C6 on the concrete quadratic generator `exGQuad`. -/
theorem segCostOf_formula_witness :
    exGQuad.cost_a = some 1 ∧ exGQuad.cost_b = some 2 ∧
    segCostOf exGQuad 1 = (segBoundsOf exGQuad 1).map (fun s => 2 * 1 * ((s.1 + s.2) / 2) + 2) :=
  ⟨rfl, rfl, (segCostOf_formula exGQuad 1).1 1 2 rfl rfl⟩

/-- C7: a minimum-up (or minimum-down) window constraint is generated exactly
for the start periods `t` with `1 ≤ t` and `t + span - 1 ≤ H`, and only when
the corresponding minimum `span` exceeds 1; a generator with span 1
contributes no window constraint (`windowStarts 1 H = []`). -/
theorem windowStarts_spec :
    ∀ (span : Int) (H t : ℕ),
      (t ∈ windowStarts span H ↔ 1 < span ∧ 1 ≤ t ∧ (t : Int) + span - 1 ≤ (H : Int)) ∧
      windowStarts 1 H = [] := by
  intro span H t
  constructor
  · unfold windowStarts
    by_cases h : 1 < span
    · rw [if_pos h, List.mem_range'_1]
      constructor
      · rintro ⟨h1, h2⟩
        exact ⟨h, h1, by omega⟩
      · rintro ⟨_, h1, h2⟩
        exact ⟨h1, by omega⟩
    · rw [if_neg h]
      simp only [List.not_mem_nil, false_iff]
      omega
  · unfold windowStarts
    norm_num

/-- C8: the DC-flow constraint divides by the reactance only when it is
strictly positive — for `x > 0` it pins `flow = (θ_from - θ_to) / x`, and for
`x ≤ 0` (zero or undefined reactance) it pins `flow = 0` instead. -/
theorem dcFlowCon_spec :
    ∀ (xr θf θt fl : ℚ),
      (0 < xr → (dcFlowCon xr θf θt fl ↔ fl = (θf - θt) / xr)) ∧
      (xr ≤ 0 → (dcFlowCon xr θf θt fl ↔ fl = 0)) := by
  intro xr θf θt fl
  constructor
  · intro h
    unfold dcFlowCon
    rw [if_pos h]
    exact sub_eq_zero
  · intro h
    unfold dcFlowCon
    rw [if_neg (not_lt.mpr h)]

/-- Witness for C8 at reactance 2 and angle difference 4. -/
theorem dcFlowCon_spec_witness :
    (0 : ℚ) < 2 ∧ (dcFlowCon 2 6 2 2 ↔ (2 : ℚ) = (6 - 2) / 2) :=
  ⟨by norm_num, (dcFlowCon_spec 2 6 2 2).1 (by norm_num)⟩

/-- With a nonnegative quadratic coefficient, the marginal cost of a segment
is monotone in the sum of its endpoints. -/
lemma segMC_mono (av bv lo1 hi1 lo2 hi2 : ℚ) (hav : 0 ≤ av) (hsum : lo1 + hi1 ≤ lo2 + hi2) :
    segMC (some av) (some bv) lo1 hi1 ≤ segMC (some av) (some bv) lo2 hi2 := by
  simp only [segMC]
  nlinarith [mul_nonneg hav (sub_nonneg.mpr hsum)]

/-- C9: for every generator whose quadratic coefficient satisfies `a ≥ 0`
(both cost coefficients present), the sequence of segment marginal costs is
monotonically non-decreasing in segment order. -/
theorem segCostOf_monotone :
    ∀ (g : GenData) (n : ℕ) (av bv : ℚ),
      g.cost_a = some av → g.cost_b = some bv → 0 ≤ av →
      List.Chain' (· ≤ ·) (segCostOf g n) := by
  intro g n av bv ha hb hav
  unfold segCostOf segBoundsOf piecewise_segments
  rw [ha, hb]
  by_cases hd : pmaxOf g ≤ pminOf g
  · rw [if_pos hd]
    simp
  · rw [if_neg hd]
    rw [List.map_map, List.chain'_map]
    cases n with
    | zero => simp
    | succ m =>
      rw [List.chain'_range_succ]
      intro i him
      have hlt : pminOf g < pmaxOf g := not_le.mp hd
      have h1 : (0 : ℚ) ≤ pmaxOf g - pminOf g := by linarith
      have h2 : (0 : ℚ) < ((m + 1 : ℕ) : ℚ) := by exact_mod_cast Nat.succ_pos m
      have hpt : ∀ j k : ℕ, j ≤ k →
          pminOf g + (pmaxOf g - pminOf g) * (j : ℚ) / ((m + 1 : ℕ) : ℚ) ≤
            pminOf g + (pmaxOf g - pminOf g) * (k : ℚ) / ((m + 1 : ℕ) : ℚ) := by
        intro j k hjk
        have h3 : ((j : ℕ) : ℚ) ≤ ((k : ℕ) : ℚ) := by exact_mod_cast hjk
        exact add_le_add_left
          ((div_le_div_iff_of_pos_right h2).mpr (mul_le_mul_of_nonneg_left h3 h1)) _
      simp only [Function.comp_apply]
      apply segMC_mono _ _ _ _ _ _ hav
      have ha1 := hpt i (i + 1) (by omega)
      have ha2 := hpt (i + 1) (i + 2) (by omega)
      push_cast at ha1 ha2 ⊢
      ring_nf at ha1 ha2 ⊢
      linarith

/-- Witness for C9 on `exGQuad` with two segments. -/
theorem segCostOf_monotone_witness :
    exGQuad.cost_a = some 1 ∧ exGQuad.cost_b = some 2 ∧ (0 : ℚ) ≤ 1 ∧
    List.Chain' (· ≤ ·) (segCostOf exGQuad 2) :=
  ⟨rfl, rfl, by norm_num, segCostOf_monotone exGQuad 2 1 2 rfl rfl (by norm_num)⟩

/-- C10: the nodal-balance constant is `demand(t,b) - renewable(t,b)`, and a
demand or renewable map with no entry for `(t, b)` — whether the period or the
bus is missing — contributes exactly 0. -/
theorem balanceRhs_defaults :
    ∀ (d : UCData) (t : ℕ) (b : Int),
      balanceRhs d t b = tsGet d.demand t b - tsGet (d.renewable.getD []) t b ∧
      (∀ m : List (ℕ × List (Int × ℚ)),
        ((m.lookup t).getD []).lookup b = none → tsGet m t b = 0) := by
  intro d t b
  refine ⟨rfl, ?_⟩
  intro m h
  unfold tsGet
  rw [h]
  rfl

/-- Witness for C10: period 3 is absent from `exDem`, so the lookup chain
yields `none` and the read defaults to 0. -/
theorem balanceRhs_defaults_witness :
    ((exDem.lookup 3).getD []).lookup 2 = none ∧ tsGet exDem 3 2 = 0 :=
  ⟨by decide, (balanceRhs_defaults exData 3 2).2 exDem (by decide)⟩

/-- C1 (amended): when the MILP stage succeeds but the LP re-solve fails on
the chosen backend and on the `glpk` fallback, `solve_uc` raises (returns an
error) instead of returning the schedule with null prices. -/
theorem solve_uc_lp_failure_raises :
    ∀ (milp lp : String → Except String Unit) (sn : Option String)
      (cs : Option (List String)) (used eu eg : String),
      tryMILP milp (resolveCandidates sn cs) none = .ok used →
      lp used = .error eu → lp "glpk" = .error eg →
      ∃ msg, solve_uc milp lp sn cs = .error msg := by
  intro milp lp sn cs used eu eg h1 h2 h3
  simp only [solve_uc, h1]
  simp only [lpResolve, h2]
  by_cases h : used = "glpk"
  · simp [h]
  · simp [h, h3]

/-- Witness for the amended C1 on concrete oracles: `cbc` solves the MILP,
every LP attempt fails. -/
theorem solve_uc_lp_failure_raises_witness :
    tryMILP milpFirstOk (resolveCandidates none none) none = .ok "cbc" ∧
    lpAlwaysFail "cbc" = .error "LPERR" ∧ lpAlwaysFail "glpk" = .error "LPERR" ∧
    ∃ msg, solve_uc milpFirstOk lpAlwaysFail none none = .error msg :=
  ⟨rfl, rfl, rfl,
   solve_uc_lp_failure_raises milpFirstOk lpAlwaysFail none none "cbc" "LPERR" "LPERR"
     rfl rfl rfl⟩

/-- Counterexample for C1: with the MILP solved by `cbc` and both LP attempts
failing, `solve_uc` raises
`RuntimeError("LP re-solve failed on both cbc and glpk: …")` — it does not
return normally. -/
theorem solve_uc_lp_failure_not_ok :
    solve_uc milpFirstOk lpAlwaysFail none none =
      .error "LP re-solve failed on both cbc and glpk: LPERR, LPERR" ∧
    (solve_uc milpFirstOk lpAlwaysFail none none).isOk = false :=
  ⟨rfl, rfl⟩

/-- C4 (amended): when both default candidates fail the MILP stage, `solve_uc`
raises `RuntimeError("No solver succeeded. Last error: …")` carrying only the
last backend's failure reason. -/
theorem solve_uc_milp_exhaustion_last_error :
    ∀ (milp lp : String → Except String Unit) (e1 e2 : String),
      milp "cbc" = .error e1 → milp "glpk" = .error e2 →
      solve_uc milp lp none none =
        .error ("No solver succeeded. Last error: " ++ e2) := by
  intro milp lp e1 e2 h1 h2
  unfold solve_uc resolveCandidates
  simp [tryMILP, h1, h2]

/-- Witness for the amended C4 on the concrete all-failing oracle. -/
theorem solve_uc_milp_exhaustion_last_error_witness :
    milpAllFail "cbc" = .error "E1" ∧ milpAllFail "glpk" = .error "E2" ∧
    solve_uc milpAllFail lpAlwaysFail none none =
      .error ("No solver succeeded. Last error: " ++ "E2") :=
  ⟨rfl, rfl,
   solve_uc_milp_exhaustion_last_error milpAllFail lpAlwaysFail "E1" "E2" rfl rfl⟩

/-- Counterexample for C4: with `cbc` failing with reason `E1` and `glpk` with
`E2`, the raised error reports only `E2`; the first backend's reason `E1`
appears nowhere in the message, so the error does not enumerate all attempted
backends with their reasons. -/
theorem solve_uc_milp_exhaustion_drops_first_error :
    solve_uc milpAllFail lpAlwaysFail none none =
      .error "No solver succeeded. Last error: E2" ∧
    ¬ List.IsInfix "E1".toList "No solver succeeded. Last error: E2".toList :=
  ⟨rfl, by decide⟩

/-- C2: the point `exAsg` satisfies every constraint `build_uc_model` emits
on `exData` (horizon 1, one segment), yet carries spinning reserve
`r_sp(g1,1) = 10` strictly above the committed headroom
`pmax * u - p = 0` of the uncommitted generator: the source's `r_sp_bound`
only enforces `r_sp ≤ pmax - p`, omitting the commitment factor. -/
theorem r_sp_bound_allows_uncommitted_reserve :
    Feasible exData 1 1 exAsg ∧
    pmaxOf exG1 * exAsg.u "g1" 1 - exAsg.p "g1" 1 < exAsg.r_sp "g1" 1 := by
  constructor
  · unfold Feasible
    norm_num [exData, exAsg, exG1, pminOf, pmaxOf, rampUpOf, rampDownOf, minUpOf, minDownOf,
      Tlist, busesOf, segBoundsOf, piecewise_segments, segMC, tsGet, reqGet, balanceRhs,
      dcFlowCon, windowStarts, List.range', List.insertionSort, List.lookup,
      List.getD, Nat.lt_one_iff, List.range_succ, List.range_zero]
  · norm_num [exAsg, exG1, pmaxOf]
